import Mathlib

/-!
Shallow embedding of `src/condacolab.py` (the `condacolab` module).

Modelling conventions:

* A Python `dict` (used for the caller-supplied `env` mapping and for
  `os.environ`) is an association list `List (String × String)` with the
  usual CPython semantics: assignment to an existing key updates the value
  in place keeping its position, assignment to a fresh key appends at the
  end, and iteration (`.items()`) follows that order.
* The filesystem maps a path to the ordered list of chunks written into the
  file (`String → Option (List String)`).  Every `f.write(s)` in the source
  appends one chunk; since every write in the source is newline-terminated
  (the ipython snippet being a single multi-line chunk), a chunk is exactly
  what the source writes in one `write` call.  `os.rename` moves the chunk
  list, `os.unlink` removes the entry, opening in `"w"` mode replaces the
  entry, opening in `"a"` mode appends to it (creating it when absent).
  Directory creation (`mkdir`) and the execute bit (`chmod`) are not
  tracked; the `chmod` subprocess is recorded in the call log.
* `sys.path` is an explicit `List String`, `sys.executable` a `String`,
  `sys.version_info[:2]` the pair `pymaj`/`pymin`.
* `urlopen` is modelled by an `Except String String` input (the payload or
  the raised error); `subprocess.call` by recording the argv in a call log
  and an exit-code input that the source never inspects.
* A raised Python exception is an `Except.error` carrying the message and
  the state at raise time, so "nothing was modified" is statable.
-/

/-- A Python `dict` from strings to strings, as an insertion-ordered
association list. -/
abbrev Dict := List (String × String)

/-- CPython `d[k] = v`: update the value at an existing key in place,
otherwise append the new binding at the end. -/
def dictSet (d : Dict) (k v : String) : Dict :=
  if d.any (fun p => p.1 = k) then
    d.map (fun p => if p.1 = k then (k, v) else p)
  else d ++ [(k, v)]

/-- CPython `d.get(k)`: the value bound to the first occurrence of `k`. -/
def dictLookup (d : Dict) (k : String) : Option String :=
  match d.find? (fun p => p.1 = k) with
  | some p => some p.2
  | none => none

/-- The filesystem: a path maps to the list of chunks written to the file,
or `none` when the file does not exist. -/
def Fs : Type := String → Option (List String)

/-- `open(p, "w")` followed by writes: the file now holds exactly `chunks`. -/
def Fs.write (fs : Fs) (p : String) (chunks : List String) : Fs :=
  fun q => if q = p then some chunks else fs q

/-- `open(p, "a")` followed by one write: append a chunk, creating the file
when absent. -/
def Fs.append (fs : Fs) (p : String) (chunk : String) : Fs :=
  fun q => if q = p then some ((fs p).getD [] ++ [chunk]) else fs q

/-- `os.rename(src, dst)` on Linux: `dst` silently receives `src`'s content
(overwriting any previous `dst`) and `src` disappears. -/
def Fs.rename (fs : Fs) (src dst : String) : Fs :=
  fun q => if q = dst then fs src else if q = src then none else fs q

/-- `os.unlink(p)`. -/
def Fs.unlink (fs : Fs) (p : String) : Fs :=
  fun q => if q = p then none else fs q

/-- The process state the module reads and mutates. -/
structure PyState where
  fs : Fs
  sysPath : List String
  environ : Dict
  executable : String
  pymaj : Nat
  pymin : Nat
  callLog : List (List String)
  restartRequested : Bool

/-- The dynamic-library search-path key forced by the module. -/
def ldKey : String := "LD_LIBRARY_PATH"

/-- line 105: the quoted value the module binds to `LD_LIBRARY_PATH`:
`"<prefix>/lib:$LD_LIBRARY_PATH"`, double quotes included. -/
def ldValue (pfx : String) : String :=
  "\"" ++ pfx ++ "/lib:$LD_LIBRARY_PATH\""

/-- line 99: `f"{prefix}/lib/python{pymaj}.{pymin}/site-packages"`. -/
def sitePackages (pfx : String) (pymaj pymin : Nat) : String :=
  pfx ++ "/lib/python" ++ toString pymaj ++ "." ++ toString pymin ++ "/site-packages"

/-- CPython `str.split(sep)` for a one-character separator, over the
character list: split at every occurrence of `sep`, keeping empty words
(`"".split(".") == [""]`, `"a..b".split(".") == ["a", "", "b"]`). -/
def pySplit (sep : Char) : List Char → List (List Char)
  | [] => [[]]
  | c :: cs =>
    if c = sep then [] :: pySplit sep cs
    else
      match pySplit sep cs with
      | [] => [[c]]
      | w :: ws => (c :: w) :: ws

/-- CPython `s.split(sep)` on strings, one-character separator. -/
def pySplitOn (s : String) (sep : Char) : List String :=
  (pySplit sep s.data).map (fun cs => String.mk cs)

/-- line 75: `".".join(os.environ.get("CUDA_VERSION", "*.*.*").split(".")[:2])`. -/
def cudaVersionTag (cudaEnv : Option String) : String :=
  String.intercalate "." ((pySplitOn (cudaEnv.getD "*.*.*") '.').take 2)

/-- line 82: the interpreter version pin line. -/
def pinLine1 (pymaj pymin : Nat) : String :=
  "python " ++ toString pymaj ++ "." ++ toString pymin ++ ".*\n"

/-- line 83: the interpreter ABI pin line. -/
def pinLine2 (pymaj pymin : Nat) : String :=
  "python_abi " ++ toString pymaj ++ "." ++ toString pymin ++ ".* *cp"
    ++ toString pymaj ++ toString pymin ++ "*\n"

/-- line 84: the accelerator-library pin line. -/
def pinLine3 (cuda : String) : String :=
  "cudatoolkit " ++ cuda ++ ".*\n"

/-- lines 81-84: the three chunks appended to `<prefix>/conda-meta/pinned`. -/
def pinLines (pymaj pymin : Nat) (cuda : String) : List String :=
  [pinLine1 pymaj pymin, pinLine2 pymaj pymin, pinLine3 cuda]

/-- lines 89-98: the single chunk appended to the ipython startup config. -/
def ipythonSnippet (pfx : String) (pymaj pymin : Nat) : String :=
  "\nc.InteractiveShellApp.exec_lines = [\n"
    ++ "                    \"import sys\",\n"
    ++ "                    \"sp = f'" ++ pfx ++ "/lib/python" ++ toString pymaj
    ++ "." ++ toString pymin ++ "/site-packages'\",\n"
    ++ "                    \"if sp not in sys.path:\",\n"
    ++ "                    \"    sys.path.insert(0, sp)\",\n"
    ++ "                ]\n            "

/-- line 110: `" ".join(f"{k}={v}" for k, v in env.items())` — each pair is
rendered verbatim and unescaped. -/
def envStr (env : Dict) : String :=
  String.intercalate " " (env.map (fun kv => kv.1 ++ "=" ++ kv.2))

/-- lines 109-111: the two lines written into the shim at `sys.executable`. -/
def shimLines (pfx : String) (env : Dict) : List String :=
  ["#!/bin/bash\n",
   "exec env " ++ envStr env ++ " " ++ pfx ++ "/bin/python -x $@\n"]

/-- lines 104-105: `env = env or {}` then the forced `LD_LIBRARY_PATH`
binding.  A `None` or an *empty* caller dict is falsy, so a fresh dict is
used; a non-empty caller dict is mutated in place. -/
def mergedEnv (callerEnv : Option Dict) (pfx : String) : Dict :=
  dictSet (match callerEnv with
           | none => []
           | some d => if d.isEmpty then [] else d)
    ldKey (ldValue pfx)

/-- lines 104-105 from the caller's point of view: the contents of the
caller's own dict object after the call.  The fresh-dict branch leaves the
caller's (empty) dict untouched. -/
def callerEnvAfter (callerEnv : Option Dict) (pfx : String) : Option Dict :=
  match callerEnv with
  | none => none
  | some d => some (if d.isEmpty then d else mergedEnv (some d) pfx)

/-- The externally supplied outcomes of the two effectful primitives. -/
structure InstallInput where
  fetch : Except String String
  installerExit : Int

/-- Path of the transient installer artifact (line 66). -/
def installerFn : String := "__installer__.sh"

/-- `<prefix>/conda-meta/pinned` (line 81). -/
def pinnedPath (pfx : String) : String := pfx ++ "/conda-meta/pinned"

/-- `<prefix>/.condarc` (line 86). -/
def condarcPath (pfx : String) : String := pfx ++ "/.condarc"

/-- The interpreter start-up script (line 89). -/
def ipythonPath : String := "/etc/ipython/ipython_config.py"

/-- Lines 66-115 of `install_from_url` after a successful download of
`payload`: run the installer (exit code never inspected), delete the
artifact, append the pin / run-control / start-up chunks, patch the live
module search path, merge the env mapping, swap the executable for the
shim, and request the restart.  Returns the final state and the contents
of the caller's `env` dict after the call. -/
def runInstall (payload pfx : String) (env : Option Dict) (st : PyState) :
    PyState × Option Dict :=
  let fs := st.fs.write installerFn [payload]
  let callLog := st.callLog ++ [["bash", installerFn, "-bfp", pfx]]
  let fs := fs.unlink installerFn
  let cuda := cudaVersionTag (dictLookup st.environ "CUDA_VERSION")
  let fs := fs.append (pinnedPath pfx) (pinLine1 st.pymaj st.pymin)
  let fs := fs.append (pinnedPath pfx) (pinLine2 st.pymaj st.pymin)
  let fs := fs.append (pinnedPath pfx) (pinLine3 cuda)
  let fs := fs.append (condarcPath pfx) "always_yes: true\n"
  let fs := fs.append ipythonPath (ipythonSnippet pfx st.pymaj st.pymin)
  let sp := sitePackages pfx st.pymaj st.pymin
  let sysPath := if sp ∈ st.sysPath then st.sysPath else sp :: st.sysPath
  let env2 := mergedEnv env pfx
  let fs := fs.rename st.executable (st.executable ++ ".real")
  let fs := fs.write st.executable (shimLines pfx env2)
  let callLog := callLog ++ [["chmod", "+x", st.executable]]
  ({ st with fs := fs, sysPath := sysPath, callLog := callLog,
             restartRequested := true },
   callerEnvAfter env pfx)

/-- `install_from_url(installer_url, prefix, env)`, lines 37-115.
Returns either `Except.error (msg, st)` — the exception raised by the
download and the (unmodified) state at raise time — or
`Except.ok (st, callerEnv)` with the final state and the contents of the
caller's `env` dict after the call. -/
def install_from_url (inp : InstallInput) (pfx : String) (env : Option Dict)
    (st : PyState) : Except (String × PyState) (PyState × Option Dict) :=
  match inp.fetch with
  | Except.error e => Except.error (e, st)
  | Except.ok payload => Except.ok (runInstall payload pfx env st)

/-- `install_from_url` iterated `n` times with the same download payload,
prefix and caller mapping (the first component of the result each time). -/
def runN (payload pfx : String) (env : Option Dict) : Nat → PyState → PyState
  | 0, st => st
  | n + 1, st => runN payload pfx env n (runInstall payload pfx env st).1

/-- The ambient facts `check` consults (lines 227-246). -/
structure CheckInput where
  condaFound : Bool
  sysPath : List String
  ldLibraryPath : Option String
  pymaj : Nat
  pymin : Nat

/-- line 238: the first assertion's diagnostic. -/
def condaMsg : String := "💥💔💥 Conda not found!"

/-- line 242: the second assertion's diagnostic (the module-search-path
value is rendered through `toString`, modelling Python's f-string). -/
def pythonpathMsg (sysPath : List String) : String :=
  "💥💔💥 PYTHONPATH was not patched! Value: " ++ toString sysPath

/-- lines 243-245: the third assertion's diagnostic. -/
def ldMsg (v : String) : String :=
  "💥💔💥 LD_LIBRARY_PATH was not patched! Value: " ++ v

/-- `os.environ["LD_LIBRARY_PATH"]` raises `KeyError` when unset. -/
def keyErrorMsg : String := "KeyError: LD_LIBRARY_PATH"

/-- CPython `needle in hay` on strings: substring containment. -/
def strContains (hay needle : String) : Bool :=
  (List.range (hay.data.length + 1)).any
    (fun i => needle.data.isPrefixOf (hay.data.drop i))

/-- `check(prefix)`, lines 227-246: three assertions evaluated in order,
the first failing one raises with its own message. -/
def check (pfx : String) (inp : CheckInput) : Except String Unit :=
  if inp.condaFound then
    if sitePackages pfx inp.pymaj inp.pymin ∈ inp.sysPath then
      match inp.ldLibraryPath with
      | none => Except.error keyErrorMsg
      | some v =>
        if strContains v (pfx ++ "/lib") then Except.ok ()
        else Except.error (ldMsg v)
    else Except.error (pythonpathMsg inp.sysPath)
  else Except.error condaMsg

/-! ## Path disequalities

The distinct artifact paths differ in their final character
(`…pinned` / `….condarc` / `…config.py` / `__installer__.sh` / `….real`),
which settles every needed disequality for arbitrary prefixes. -/

lemma self_ne_real (s : String) : s ≠ s ++ ".real" := by
  intro h
  have h' := congrArg (fun t => t.data.length) h
  simp [String.data_append] at h'

lemma ne_of_lastChar {s t : String} (h : s.data.getLast? ≠ t.data.getLast?) :
    s ≠ t :=
  fun he => h (by rw [he])

lemma lastChar_concat (a s : String) (c : Char) (h : s.data.getLast? = some c) :
    (a ++ s).data.getLast? = some c := by
  simp [String.data_append, List.getLast?_append, h, Option.or]

lemma pinned_ne_condarc (p q : String) : pinnedPath p ≠ condarcPath q := by
  unfold pinnedPath condarcPath
  apply ne_of_lastChar
  rw [lastChar_concat _ _ 'd' (by decide), lastChar_concat _ _ 'c' (by decide)]
  decide

lemma pinned_ne_real (p s : String) : pinnedPath p ≠ s ++ ".real" := by
  unfold pinnedPath
  apply ne_of_lastChar
  rw [lastChar_concat _ _ 'd' (by decide), lastChar_concat _ _ 'l' (by decide)]
  decide

lemma pinned_ne_ipython (p : String) : pinnedPath p ≠ ipythonPath := by
  unfold pinnedPath
  apply ne_of_lastChar
  rw [lastChar_concat _ _ 'd' (by decide)]
  decide

lemma pinned_ne_installer (p : String) : pinnedPath p ≠ installerFn := by
  unfold pinnedPath
  apply ne_of_lastChar
  rw [lastChar_concat _ _ 'd' (by decide)]
  decide

lemma condarc_ne_real (p s : String) : condarcPath p ≠ s ++ ".real" := by
  unfold condarcPath
  apply ne_of_lastChar
  rw [lastChar_concat _ _ 'c' (by decide), lastChar_concat _ _ 'l' (by decide)]
  decide

lemma condarc_ne_ipython (p : String) : condarcPath p ≠ ipythonPath := by
  unfold condarcPath
  apply ne_of_lastChar
  rw [lastChar_concat _ _ 'c' (by decide)]
  decide

lemma condarc_ne_installer (p : String) : condarcPath p ≠ installerFn := by
  unfold condarcPath
  apply ne_of_lastChar
  rw [lastChar_concat _ _ 'c' (by decide)]
  decide

lemma ipython_ne_real (s : String) : ipythonPath ≠ s ++ ".real" := by
  apply ne_of_lastChar
  rw [lastChar_concat _ _ 'l' (by decide)]
  decide

lemma ipython_ne_installer : ipythonPath ≠ installerFn := by decide

lemma installer_ne_real (s : String) : installerFn ≠ s ++ ".real" := by
  apply ne_of_lastChar
  rw [lastChar_concat _ _ 'l' (by decide)]
  decide

/-! ## What one run does to each surface -/

lemma runInstall_executable (p pfx : String) (env : Option Dict) (st : PyState) :
    (runInstall p pfx env st).1.executable = st.executable := rfl

lemma runInstall_environ (p pfx : String) (env : Option Dict) (st : PyState) :
    (runInstall p pfx env st).1.environ = st.environ := rfl

lemma runInstall_pymaj (p pfx : String) (env : Option Dict) (st : PyState) :
    (runInstall p pfx env st).1.pymaj = st.pymaj := rfl

lemma runInstall_pymin (p pfx : String) (env : Option Dict) (st : PyState) :
    (runInstall p pfx env st).1.pymin = st.pymin := rfl

lemma runInstall_sysPath (p pfx : String) (env : Option Dict) (st : PyState) :
    (runInstall p pfx env st).1.sysPath
      = if sitePackages pfx st.pymaj st.pymin ∈ st.sysPath then st.sysPath
        else sitePackages pfx st.pymaj st.pymin :: st.sysPath := rfl

lemma runInstall_snd (p pfx : String) (env : Option Dict) (st : PyState) :
    (runInstall p pfx env st).2 = callerEnvAfter env pfx := rfl

lemma runInstall_fs_exe (p pfx : String) (env : Option Dict) (st : PyState) :
    (runInstall p pfx env st).1.fs st.executable
      = some (shimLines pfx (mergedEnv env pfx)) := by
  simp [runInstall, Fs.write]

lemma runInstall_fs_real (p pfx : String) (env : Option Dict) (st : PyState)
    (h1 : st.executable ≠ installerFn) (h2 : st.executable ≠ pinnedPath pfx)
    (h3 : st.executable ≠ condarcPath pfx) (h4 : st.executable ≠ ipythonPath) :
    (runInstall p pfx env st).1.fs (st.executable ++ ".real")
      = st.fs st.executable := by
  have h0 : st.executable ++ ".real" ≠ st.executable := Ne.symm (self_ne_real _)
  simp only [runInstall, Fs.write, Fs.append, Fs.rename, Fs.unlink]
  simp [h0, h1, h2, h3, h4]

lemma runInstall_fs_pinned (p pfx : String) (env : Option Dict) (st : PyState)
    (h1 : pinnedPath pfx ≠ st.executable) :
    (runInstall p pfx env st).1.fs (pinnedPath pfx)
      = some ((st.fs (pinnedPath pfx)).getD []
          ++ pinLines st.pymaj st.pymin
               (cudaVersionTag (dictLookup st.environ "CUDA_VERSION"))) := by
  have h2 := pinned_ne_real pfx st.executable
  have h3 := pinned_ne_ipython pfx
  have h4 := pinned_ne_condarc pfx pfx
  have h5 := pinned_ne_installer pfx
  simp only [runInstall, Fs.write, Fs.append, Fs.rename, Fs.unlink]
  simp [h1, h2, h3, h4, h5, pinLines]

lemma runInstall_fs_condarc (p pfx : String) (env : Option Dict) (st : PyState)
    (h1 : condarcPath pfx ≠ st.executable) :
    (runInstall p pfx env st).1.fs (condarcPath pfx)
      = some ((st.fs (condarcPath pfx)).getD [] ++ ["always_yes: true\n"]) := by
  have h2 := condarc_ne_real pfx st.executable
  have h3 := condarc_ne_ipython pfx
  have h4 := (pinned_ne_condarc pfx pfx).symm
  have h5 := condarc_ne_installer pfx
  simp only [runInstall, Fs.write, Fs.append, Fs.rename, Fs.unlink]
  simp [h1, h2, h3, h4, h5]

lemma runInstall_fs_ipython (p pfx : String) (env : Option Dict) (st : PyState)
    (h1 : ipythonPath ≠ st.executable) :
    (runInstall p pfx env st).1.fs ipythonPath
      = some ((st.fs ipythonPath).getD []
          ++ [ipythonSnippet pfx st.pymaj st.pymin]) := by
  have h2 := ipython_ne_real st.executable
  have h3 := (condarc_ne_ipython pfx).symm
  have h4 := (pinned_ne_ipython pfx).symm
  have h5 := ipython_ne_installer
  simp only [runInstall, Fs.write, Fs.append, Fs.rename, Fs.unlink]
  simp [h1, h2, h3, h4, h5]

lemma runInstall_fs_installer (p pfx : String) (env : Option Dict) (st : PyState)
    (h1 : installerFn ≠ st.executable) :
    (runInstall p pfx env st).1.fs installerFn = none := by
  have h2 := installer_ne_real st.executable
  have h3 := ipython_ne_installer.symm
  have h4 := (condarc_ne_installer pfx).symm
  have h5 := (pinned_ne_installer pfx).symm
  simp only [runInstall, Fs.write, Fs.append, Fs.rename, Fs.unlink]
  simp [h1, h2, h3, h4, h5]

/-! ## Dict lemmas -/

lemma find?_dictSet_existing (d : Dict) (k v : String)
    (h : d.any (fun p => p.1 = k)) :
    (d.map (fun p => if p.1 = k then (k, v) else p)).find?
      (fun p => p.1 = k) = some (k, v) := by
  induction d with
  | nil => simp at h
  | cons q d ih =>
    by_cases hq : q.1 = k
    · simp [List.find?, hq]
    · have h' : d.any (fun p => p.1 = k) := by
        simp [List.any_cons, hq] at h
        simpa using h
      simp only [List.map_cons, if_neg hq]
      rw [List.find?_cons_of_neg _ (by simpa using hq)]
      exact ih h'

lemma find?_dictSet_new (d : Dict) (k v : String)
    (h : d.any (fun p => p.1 = k) = false) :
    (d ++ [(k, v)]).find? (fun p => p.1 = k) = some (k, v) := by
  induction d with
  | nil => simp [List.find?]
  | cons q d ih =>
    have hq : ¬ q.1 = k := by
      simp [List.any_cons] at h
      exact h.1
    simp only [List.cons_append]
    rw [List.find?_cons_of_neg _ (by simpa using hq)]
    refine ih ?_
    simp [List.any_cons] at h
    simp only [List.any_eq_false, decide_eq_true_eq]
    intro x hx
    exact h.2 x.1 x.2 hx

/-- `d[k] = v` makes a later lookup of `k` return `v`, whether or not `k`
was already bound. -/
lemma dictLookup_dictSet_self (d : Dict) (k v : String) :
    dictLookup (dictSet d k v) k = some v := by
  unfold dictLookup dictSet
  by_cases h : d.any (fun p => p.1 = k)
  · rw [if_pos h, find?_dictSet_existing d k v h]
  · rw [if_neg h, find?_dictSet_new d k v (Bool.not_eq_true _ ▸ h)]

/-- `d[k] = v` leaves every pair with a different key exactly as it was. -/
lemma mem_dictSet_iff (d : Dict) (key val k v : String) (hk : k ≠ key) :
    (k, v) ∈ dictSet d key val ↔ (k, v) ∈ d := by
  unfold dictSet
  by_cases h : d.any (fun p => p.1 = key)
  · rw [if_pos h]
    constructor
    · intro hm
      rcases List.mem_map.mp hm with ⟨q, hq, he⟩
      by_cases h1 : q.1 = key
      · rw [if_pos h1] at he
        exact absurd (congrArg Prod.fst he).symm hk
      · rw [if_neg h1] at he
        exact he ▸ hq
    · intro hm
      exact List.mem_map.mpr ⟨(k, v), hm, by simp [hk]⟩
  · rw [if_neg h]
    simp only [List.mem_append, List.mem_singleton]
    constructor
    · rintro (hd | he)
      · exact hd
      · exact absurd (congrArg Prod.fst he) hk
    · exact fun hd => Or.inl hd

/-! ## The three pin lines are pairwise distinct for every interpreter
version and accelerator tag -/

lemma pinLine1_ne_pinLine2 (pymaj pymin : Nat) :
    pinLine1 pymaj pymin ≠ pinLine2 pymaj pymin := by
  intro h
  have h' := congrArg (fun s => s.data.take 7) h
  simp only [pinLine1, pinLine2, String.data_append, List.append_assoc] at h'
  rw [List.take_append_of_le_length (by decide),
    List.take_append_of_le_length (by decide)] at h'
  exact absurd h' (by decide)

lemma pinLine1_ne_pinLine3 (pymaj pymin : Nat) (cuda : String) :
    pinLine1 pymaj pymin ≠ pinLine3 cuda := by
  intro h
  have h' := congrArg (fun s => s.data.take 1) h
  simp only [pinLine1, pinLine3, String.data_append, List.append_assoc] at h'
  rw [List.take_append_of_le_length (by decide),
    List.take_append_of_le_length (by decide)] at h'
  exact absurd h' (by decide)

lemma pinLine2_ne_pinLine3 (pymaj pymin : Nat) (cuda : String) :
    pinLine2 pymaj pymin ≠ pinLine3 cuda := by
  intro h
  have h' := congrArg (fun s => s.data.take 1) h
  simp only [pinLine2, pinLine3, String.data_append, List.append_assoc] at h'
  rw [List.take_append_of_le_length (by decide),
    List.take_append_of_le_length (by decide)] at h'
  exact absurd h' (by decide)

/-! ## More string and list helpers -/

lemma str_append_assoc (a b c : String) : a ++ b ++ c = a ++ (b ++ c) := by
  apply String.ext
  simp [String.data_append, List.append_assoc]

lemma condaMsg_ne_pythonpathMsg (l : List String) :
    condaMsg ≠ pythonpathMsg l := by
  intro h
  have h' := congrArg (fun s => s.data.take 5) h
  simp only [condaMsg, pythonpathMsg, String.data_append] at h'
  rw [List.take_append_of_le_length (by decide)] at h'
  exact absurd h' (by decide)

lemma condaMsg_ne_ldMsg (v : String) : condaMsg ≠ ldMsg v := by
  intro h
  have h' := congrArg (fun s => s.data.take 5) h
  simp only [condaMsg, ldMsg, String.data_append] at h'
  rw [List.take_append_of_le_length (by decide)] at h'
  exact absurd h' (by decide)

lemma pythonpathMsg_ne_ldMsg (l : List String) (v : String) :
    pythonpathMsg l ≠ ldMsg v := by
  intro h
  have h' := congrArg (fun s => s.data.take 5) h
  simp only [pythonpathMsg, ldMsg, String.data_append] at h'
  rw [List.take_append_of_le_length (by decide),
    List.take_append_of_le_length (by decide)] at h'
  exact absurd h' (by decide)

lemma count_join_replicate {α : Type} [BEq α] (x : α) (b : List α) (n : Nat) :
    List.count x (List.replicate n b).flatten = n * List.count x b := by
  induction n with
  | zero => simp
  | succ n ih =>
    simp only [List.replicate_succ, List.flatten_cons, List.count_append, ih]
    ring

lemma count_pinLines1 (m n : Nat) (c : String) :
    List.count (pinLine1 m n) (pinLines m n c) = 1 := by
  have h2 := (pinLine1_ne_pinLine2 m n).symm
  have h3 := (pinLine1_ne_pinLine3 m n c).symm
  simp [pinLines, List.count_cons, h2, h3]

lemma count_pinLines2 (m n : Nat) (c : String) :
    List.count (pinLine2 m n) (pinLines m n c) = 1 := by
  have h1 := pinLine1_ne_pinLine2 m n
  have h3 := (pinLine2_ne_pinLine3 m n c).symm
  simp [pinLines, List.count_cons, h1, h3]

lemma count_pinLines3 (m n : Nat) (c : String) :
    List.count (pinLine3 c) (pinLines m n c) = 1 := by
  have h1 := pinLine1_ne_pinLine3 m n c
  have h2 := pinLine2_ne_pinLine3 m n c
  simp [pinLines, List.count_cons, h1, h2]

/-! ## Iterated runs -/

lemma runN_executable (p pfx : String) (env : Option Dict) (n : Nat)
    (st : PyState) : (runN p pfx env n st).executable = st.executable := by
  induction n generalizing st with
  | zero => rfl
  | succ n ih => rw [runN, ih, runInstall_executable]

lemma runN_environ (p pfx : String) (env : Option Dict) (n : Nat)
    (st : PyState) : (runN p pfx env n st).environ = st.environ := by
  induction n generalizing st with
  | zero => rfl
  | succ n ih => rw [runN, ih, runInstall_environ]

lemma runN_pymaj (p pfx : String) (env : Option Dict) (n : Nat)
    (st : PyState) : (runN p pfx env n st).pymaj = st.pymaj := by
  induction n generalizing st with
  | zero => rfl
  | succ n ih => rw [runN, ih, runInstall_pymaj]

lemma runN_pymin (p pfx : String) (env : Option Dict) (n : Nat)
    (st : PyState) : (runN p pfx env n st).pymin = st.pymin := by
  induction n generalizing st with
  | zero => rfl
  | succ n ih => rw [runN, ih, runInstall_pymin]

/-- Each run appends exactly the three pin lines to the Pin Set file. -/
lemma runN_pinned (p pfx : String) (env : Option Dict) (n : Nat) (st : PyState)
    (h1 : pinnedPath pfx ≠ st.executable) :
    ((runN p pfx env n st).fs (pinnedPath pfx)).getD []
      = (st.fs (pinnedPath pfx)).getD []
        ++ (List.replicate n
             (pinLines st.pymaj st.pymin
               (cudaVersionTag (dictLookup st.environ "CUDA_VERSION")))).flatten := by
  induction n generalizing st with
  | zero => simp [runN]
  | succ n ih =>
    rw [runN]
    have h1' : pinnedPath pfx ≠ (runInstall p pfx env st).1.executable := by
      rw [runInstall_executable]; exact h1
    rw [ih (runInstall p pfx env st).1 h1', runInstall_fs_pinned p pfx env st h1,
      runInstall_environ, runInstall_pymaj, runInstall_pymin]
    simp [List.replicate_succ, List.append_assoc]

/-! ## Concrete states used to instantiate the theorems -/

/-- A baseline Colab-like process state: empty filesystem, a stock module
search path, `CUDA_VERSION` set, Python 3.7. -/
def st0 : PyState :=
  { fs := fun _ => none,
    sysPath := ["/usr/lib/python37.zip", "/usr/lib/python3.7"],
    environ := [("CUDA_VERSION", "10.1.243")],
    executable := "/usr/bin/python3",
    pymaj := 3, pymin := 7,
    callLog := [],
    restartRequested := false }

/-- `st0` with the computed site-packages path already on the module search
path, but not at the front. -/
def stMid : PyState :=
  { st0 with sysPath := ["/x", sitePackages "/usr/local" 3 7] }

/-- `st0` with an original interpreter binary on disk at the executable
path. -/
def stBin : PyState :=
  { st0 with fs := fun q => if q = "/usr/bin/python3" then some ["ORIG"] else none }

/-! ## Claims -/

/-- C9: when the download step fails, `install_from_url` propagates the
fetch's own error unwrapped and aborts before installation: the result is
exactly the raised error paired with the untouched pre-call state, so no
installer subprocess was spawned (`callLog` unchanged) and no file, module
search path or executable was modified. -/
theorem download_failure_propagates (e : String) (c : Int) (pfx : String)
    (env : Option Dict) (st : PyState) :
    install_from_url { fetch := Except.error e, installerExit := c } pfx env st
      = Except.error (e, st) := rfl

/-- C4: after the installer subprocess runs, its artifact
`__installer__.sh` is deleted unconditionally and the run proceeds through
configuration patching and rebinding identically for every exit code: the
result does not depend on the exit code at all, the artifact is absent from
the final filesystem, the Pin Set and run-control appends and the restart
request all happen as if installation succeeded. -/
theorem installer_exit_never_inspected (p pfx : String) (c c' : Int)
    (env : Option Dict) (st : PyState) (h1 : installerFn ≠ st.executable) :
    install_from_url { fetch := Except.ok p, installerExit := c } pfx env st
        = install_from_url { fetch := Except.ok p, installerExit := c' } pfx env st
    ∧ install_from_url { fetch := Except.ok p, installerExit := c } pfx env st
        = Except.ok (runInstall p pfx env st)
    ∧ (runInstall p pfx env st).1.fs installerFn = none
    ∧ (pinnedPath pfx ≠ st.executable →
        (runInstall p pfx env st).1.fs (pinnedPath pfx)
          = some ((st.fs (pinnedPath pfx)).getD []
              ++ pinLines st.pymaj st.pymin
                   (cudaVersionTag (dictLookup st.environ "CUDA_VERSION"))))
    ∧ (condarcPath pfx ≠ st.executable →
        (runInstall p pfx env st).1.fs (condarcPath pfx)
          = some ((st.fs (condarcPath pfx)).getD [] ++ ["always_yes: true\n"]))
    ∧ (runInstall p pfx env st).1.restartRequested = true :=
  ⟨rfl, rfl, runInstall_fs_installer p pfx env st h1,
   fun h => runInstall_fs_pinned p pfx env st h,
   fun h => runInstall_fs_condarc p pfx env st h, rfl⟩

theorem installer_exit_never_inspected_witness :
    install_from_url { fetch := Except.ok "data", installerExit := 137 }
        "/usr/local" none st0
      = install_from_url { fetch := Except.ok "data", installerExit := 0 }
          "/usr/local" none st0
    ∧ (runInstall "data" "/usr/local" none st0).1.fs installerFn = none :=
  ⟨(installer_exit_never_inspected "data" "/usr/local" 137 0 none st0
      (by decide)).1,
   (installer_exit_never_inspected "data" "/usr/local" 137 0 none st0
      (by decide)).2.2.1⟩

/-- C1: the shim written at the executable path is built from the merged
mapping, in which `LD_LIBRARY_PATH` is bound to the system-computed quoted
value `"<prefix>/lib:$LD_LIBRARY_PATH"` (whose content between the quotes
starts with `<prefix>/lib:`), overwriting any caller-supplied value for
that key, while every other caller pair is carried into the shim line
verbatim and unescaped (the line is the literal space-joined `k=v`
rendering of the merged mapping). -/
theorem shim_env_merge (p pfx : String) (d : Dict) (st : PyState) :
    (runInstall p pfx (some d) st).1.fs st.executable
        = some (shimLines pfx (mergedEnv (some d) pfx))
    ∧ shimLines pfx (mergedEnv (some d) pfx)
        = ["#!/bin/bash\n",
           "exec env " ++ envStr (mergedEnv (some d) pfx) ++ " " ++ pfx
             ++ "/bin/python -x $@\n"]
    ∧ dictLookup (mergedEnv (some d) pfx) ldKey = some (ldValue pfx)
    ∧ ldValue pfx = "\"" ++ (pfx ++ "/lib:") ++ "$LD_LIBRARY_PATH" ++ "\""
    ∧ (∀ k v, k ≠ ldKey →
        ((k, v) ∈ mergedEnv (some d) pfx ↔ (k, v) ∈ d)) := by
  refine ⟨runInstall_fs_exe p pfx (some d) st, rfl,
    dictLookup_dictSet_self _ ldKey (ldValue pfx), ?_, ?_⟩
  · apply String.ext
    simp [ldValue, String.data_append, List.append_assoc]
  · intro k v hk
    have hme : mergedEnv (some d) pfx
        = dictSet (if d.isEmpty then [] else d) ldKey (ldValue pfx) := rfl
    rw [hme]
    by_cases hd : d.isEmpty
    · have hnil : d = [] := by
        cases d with
        | nil => rfl
        | cons a l => simp [List.isEmpty] at hd
      subst hnil
      simp [dictSet, Prod.ext_iff, hk]
    · rw [if_neg hd]
      exact mem_dictSet_iff d ldKey (ldValue pfx) k v hk

theorem shim_env_merge_witness :
    ("FOO", "bar") ∈ mergedEnv (some [("FOO", "bar"), (ldKey, "evil")]) "/usr/local"
    ∧ dictLookup (mergedEnv (some [("FOO", "bar"), (ldKey, "evil")]) "/usr/local")
        ldKey = some (ldValue "/usr/local") :=
  ⟨((shim_env_merge "x" "/usr/local" [("FOO", "bar"), (ldKey, "evil")] st0
      ).2.2.2.2 "FOO" "bar" (by decide)).mpr (by decide),
   (shim_env_merge "x" "/usr/local" [("FOO", "bar"), (ldKey, "evil")] st0).2.2.1⟩

/-- C10 counterexample: an empty (but non-`None`) caller dict is falsy in
Python, so `env = env or {}` silently replaces it by a fresh dict — after
the call the caller's own mapping is still empty and carries no
`LD_LIBRARY_PATH` binding, contradicting the claim that every non-`None`
caller mapping is mutated in place. -/
theorem empty_env_not_mutated :
    (runInstall "x" "/usr/local" (some ([] : Dict)) st0).2 = some []
    ∧ dictLookup ([] : Dict) ldKey = none := ⟨rfl, rfl⟩

/-- C10 amended: when the caller passes a non-*empty* mapping,
`install_from_url` mutates that very mapping in place — binding (or
overwriting) its `LD_LIBRARY_PATH` key to the system-computed quoted value,
observable in the caller's dictionary afterwards — and every other entry is
left untouched.  (A `None` or empty mapping is falsy, so a fresh dict is
used instead and the caller's object is not modified.) -/
theorem nonempty_env_mutated_in_place (p pfx : String) (d : Dict)
    (st : PyState) (hd : d ≠ []) :
    (runInstall p pfx (some d) st).2 = some (dictSet d ldKey (ldValue pfx))
    ∧ dictLookup (dictSet d ldKey (ldValue pfx)) ldKey = some (ldValue pfx)
    ∧ (∀ k v, k ≠ ldKey →
        ((k, v) ∈ dictSet d ldKey (ldValue pfx) ↔ (k, v) ∈ d)) := by
  have hie : d.isEmpty = false := by
    cases d with
    | nil => exact absurd rfl hd
    | cons a l => rfl
  refine ⟨?_, dictLookup_dictSet_self d ldKey (ldValue pfx),
    fun k v hk => mem_dictSet_iff d ldKey (ldValue pfx) k v hk⟩
  rw [runInstall_snd]
  simp [callerEnvAfter, mergedEnv, hie]

theorem nonempty_env_mutated_in_place_witness :
    (runInstall "x" "/usr/local" (some [("FOO", "bar")]) st0).2
      = some (dictSet [("FOO", "bar")] ldKey (ldValue "/usr/local")) :=
  (nonempty_env_mutated_in_place "x" "/usr/local" [("FOO", "bar")] st0
    (by decide)).1

/-- C2 counterexample: when the computed site-packages path is already on
the module search path but not at the front, `install_from_url` leaves the
search path untouched, so the path is *not* at index 0 afterwards —
contradicting the claim that it always ends up at the front. -/
theorem site_packages_not_front :
    (runInstall "x" "/usr/local" none stMid).1.sysPath
        = ["/x", sitePackages "/usr/local" 3 7]
    ∧ ["/x", sitePackages "/usr/local" 3 7].head?
        ≠ some (sitePackages "/usr/local" 3 7) := by
  constructor
  · rfl
  · decide

/-- C2 amended: if the computed site-packages path is absent from the live
search path it is inserted at the front (present exactly once, at index 0);
if it is already present the search path is left entirely unchanged — no
duplicate is inserted, but the path also stays wherever it already was. -/
theorem site_packages_rebinding (p pfx : String) (env : Option Dict)
    (st : PyState) :
    (sitePackages pfx st.pymaj st.pymin ∉ st.sysPath →
      (runInstall p pfx env st).1.sysPath
          = sitePackages pfx st.pymaj st.pymin :: st.sysPath
      ∧ List.count (sitePackages pfx st.pymaj st.pymin)
          (runInstall p pfx env st).1.sysPath = 1
      ∧ (runInstall p pfx env st).1.sysPath.head?
          = some (sitePackages pfx st.pymaj st.pymin))
    ∧ (sitePackages pfx st.pymaj st.pymin ∈ st.sysPath →
        (runInstall p pfx env st).1.sysPath = st.sysPath) := by
  constructor
  · intro h
    rw [runInstall_sysPath, if_neg h]
    refine ⟨rfl, ?_, rfl⟩
    rw [List.count_cons_self, List.count_eq_zero_of_not_mem h]
  · intro h
    rw [runInstall_sysPath, if_pos h]

theorem site_packages_rebinding_witness :
    (runInstall "x" "/usr/local" none st0).1.sysPath
        = sitePackages "/usr/local" st0.pymaj st0.pymin :: st0.sysPath
    ∧ (runInstall "x" "/usr/local" none stMid).1.sysPath = stMid.sysPath :=
  ⟨((site_packages_rebinding "x" "/usr/local" none st0).1 (by decide)).1,
   (site_packages_rebinding "x" "/usr/local" none stMid).2 (by decide)⟩

/-- C3: after a single run the file at the original executable path holds
exactly the two shim lines `#!/bin/bash` and
`exec env <k=v ...> <prefix>/bin/python -x $@`, and the `.real` sibling
holds the original interpreter content byte-for-byte.  (The hypotheses say
the executable path is none of the four fixed artifact paths the run also
writes, which is what "a single successful run" presumes.) -/
theorem shim_replaces_executable (p pfx : String) (env : Option Dict)
    (st : PyState) (orig : List String)
    (h0 : st.fs st.executable = some orig)
    (h1 : st.executable ≠ installerFn) (h2 : st.executable ≠ pinnedPath pfx)
    (h3 : st.executable ≠ condarcPath pfx)
    (h4 : st.executable ≠ ipythonPath) :
    (runInstall p pfx env st).1.fs st.executable
        = some (shimLines pfx (mergedEnv env pfx))
    ∧ shimLines pfx (mergedEnv env pfx)
        = ["#!/bin/bash\n",
           "exec env " ++ envStr (mergedEnv env pfx) ++ " " ++ pfx
             ++ "/bin/python -x $@\n"]
    ∧ (runInstall p pfx env st).1.fs (st.executable ++ ".real") = some orig :=
  ⟨runInstall_fs_exe p pfx env st, rfl,
   by rw [runInstall_fs_real p pfx env st h1 h2 h3 h4, h0]⟩

theorem shim_replaces_executable_witness :
    stBin.fs stBin.executable = some ["ORIG"]
    ∧ (runInstall "x" "/usr/local" none stBin).1.fs
        (stBin.executable ++ ".real") = some ["ORIG"]
    ∧ (runInstall "x" "/usr/local" none stBin).1.fs stBin.executable
        = some (shimLines "/usr/local" (mergedEnv none "/usr/local")) :=
  ⟨rfl,
   (shim_replaces_executable "x" "/usr/local" none stBin ["ORIG"] rfl
      (by decide) (by decide) (by decide) (by decide)).2.2,
   (shim_replaces_executable "x" "/usr/local" none stBin ["ORIG"] rfl
      (by decide) (by decide) (by decide) (by decide)).1⟩

/-- C5 (a defect the spec flags as likely unintended): running the full
sequence a second time against the same prefix and executable path renames
the *first run's shim* — not the original binary — onto the `.real` path,
so after two runs `.real` holds the shim content and the original
interpreter content (`["ORIG"]`) is at neither the executable path nor the
`.real` path: the ability to invoke the original interpreter is destroyed,
against the claim's stated requirement. -/
theorem second_run_loses_original :
    (runInstall "x" "/usr/local" none
        (runInstall "x" "/usr/local" none stBin).1).1.fs
        ("/usr/bin/python3" ++ ".real")
      = some (shimLines "/usr/local" (mergedEnv none "/usr/local"))
    ∧ (runInstall "x" "/usr/local" none
        (runInstall "x" "/usr/local" none stBin).1).1.fs
        ("/usr/bin/python3" ++ ".real") ≠ some ["ORIG"]
    ∧ (runInstall "x" "/usr/local" none
        (runInstall "x" "/usr/local" none stBin).1).1.fs "/usr/bin/python3"
      ≠ some ["ORIG"] := by
  have e1 : (runInstall "x" "/usr/local" none stBin).1.executable
      = "/usr/bin/python3" := rfl
  have hreal := runInstall_fs_real "x" "/usr/local" none
      (runInstall "x" "/usr/local" none stBin).1
      (by decide) (by decide) (by decide) (by decide)
  have hexe1 := runInstall_fs_exe "x" "/usr/local" none stBin
  have hexe2 := runInstall_fs_exe "x" "/usr/local" none
      (runInstall "x" "/usr/local" none stBin).1
  rw [e1] at hreal hexe2
  have e0 : stBin.executable = "/usr/bin/python3" := rfl
  rw [e0] at hexe1
  rw [hexe1] at hreal
  exact ⟨hreal, by rw [hreal]; decide, by rw [hexe2]; decide⟩

/-- C7: the accelerator pin is the `CUDA_VERSION` value truncated to its
first two dot-separated components (`cudatoolkit A.B.*` whenever the value
splits as `A :: B :: rest`), the wildcard fallback `*.*.*` yields
`cudatoolkit *.*.*`, and the two interpreter pins are
`python <maj>.<min>.*` and `python_abi <maj>.<min>.* *cp<maj><min>*`. -/
theorem cuda_pin_derivation :
    (∀ (s A B : String) (rest : List String),
        pySplitOn s '.' = A :: B :: rest →
        cudaVersionTag (some s) = A ++ "." ++ B
        ∧ pinLine3 (cudaVersionTag (some s))
            = "cudatoolkit " ++ A ++ "." ++ B ++ ".*\n")
    ∧ cudaVersionTag none = "*.*"
    ∧ pinLine3 (cudaVersionTag none) = "cudatoolkit *.*.*\n"
    ∧ (∀ pymaj pymin : Nat,
        pinLine1 pymaj pymin
            = "python " ++ toString pymaj ++ "." ++ toString pymin ++ ".*\n"
        ∧ pinLine2 pymaj pymin
            = "python_abi " ++ toString pymaj ++ "." ++ toString pymin
                ++ ".* *cp" ++ toString pymaj ++ toString pymin ++ "*\n") := by
  refine ⟨?_, by decide, by decide, fun pymaj pymin => ⟨rfl, rfl⟩⟩
  intro s A B rest h
  have ht : cudaVersionTag (some s) = A ++ "." ++ B := by
    show String.intercalate "." ((pySplitOn s '.').take 2) = A ++ "." ++ B
    rw [h]
    rfl
  refine ⟨ht, ?_⟩
  rw [ht]
  unfold pinLine3
  simp [str_append_assoc]

theorem cuda_pin_derivation_witness :
    pySplitOn "10.1.243" '.' = ["10", "1", "243"]
    ∧ cudaVersionTag (some "10.1.243") = "10.1"
    ∧ pinLine3 (cudaVersionTag (some "10.1.243")) = "cudatoolkit 10.1.*\n" :=
  ⟨by decide,
   (cuda_pin_derivation.1 "10.1.243" "10" "1" ["243"] (by decide)).1.trans
     (by decide),
   (cuda_pin_derivation.1 "10.1.243" "10" "1" ["243"] (by decide)).2.trans
     (by decide)⟩

/-- C8: `check` evaluates its three conditions in order — package-manager
executable resolvable, computed site-packages on the module search path,
prefix library directory contained in `LD_LIBRARY_PATH` — returning
successfully when all three hold, and raising at the *first* failing
condition with that condition's own diagnostic message, regardless of the
values of the later conditions; the three diagnostics are pairwise
distinct. -/
theorem check_assertions (pfx : String) (inp : CheckInput) (v : String) :
    (inp.condaFound = true →
      sitePackages pfx inp.pymaj inp.pymin ∈ inp.sysPath →
      inp.ldLibraryPath = some v →
      strContains v (pfx ++ "/lib") = true →
      check pfx inp = Except.ok ())
    ∧ (inp.condaFound = false → check pfx inp = Except.error condaMsg)
    ∧ (inp.condaFound = true →
        sitePackages pfx inp.pymaj inp.pymin ∉ inp.sysPath →
        check pfx inp = Except.error (pythonpathMsg inp.sysPath))
    ∧ (inp.condaFound = true →
        sitePackages pfx inp.pymaj inp.pymin ∈ inp.sysPath →
        inp.ldLibraryPath = some v →
        strContains v (pfx ++ "/lib") = false →
        check pfx inp = Except.error (ldMsg v))
    ∧ condaMsg ≠ pythonpathMsg inp.sysPath
    ∧ condaMsg ≠ ldMsg v
    ∧ pythonpathMsg inp.sysPath ≠ ldMsg v := by
  refine ⟨?_, ?_, ?_, ?_, condaMsg_ne_pythonpathMsg _, condaMsg_ne_ldMsg _,
    pythonpathMsg_ne_ldMsg _ _⟩
  · intro h1 h2 h3 h4
    simp [check, h1, h2, h3, h4]
  · intro h1
    simp [check, h1]
  · intro h1 h2
    simp [check, h1, h2]
  · intro h1 h2 h3 h4
    simp [check, h1, h2, h3, h4]

/-- A configuration in which all three of `check`'s conditions hold. -/
def okInput : CheckInput :=
  { condaFound := true,
    sysPath := [sitePackages "/usr/local" 3 7],
    ldLibraryPath := some "/usr/local/lib:/usr/lib64",
    pymaj := 3, pymin := 7 }

theorem check_assertions_witness :
    check "/usr/local" okInput = Except.ok ()
    ∧ check "/usr/local" { okInput with condaFound := false }
        = Except.error condaMsg
    ∧ check "/usr/local" { okInput with sysPath := [] }
        = Except.error (pythonpathMsg [])
    ∧ check "/usr/local" { okInput with ldLibraryPath := some "/elsewhere" }
        = Except.error (ldMsg "/elsewhere") :=
  ⟨(check_assertions "/usr/local" okInput "/usr/local/lib:/usr/lib64").1
      rfl (by decide) rfl (by decide),
   (check_assertions "/usr/local" { okInput with condaFound := false }
      "x").2.1 rfl,
   (check_assertions "/usr/local" { okInput with sysPath := [] }
      "x").2.2.1 rfl (by decide),
   (check_assertions "/usr/local"
      { okInput with ldLibraryPath := some "/elsewhere" } "/elsewhere").2.2.2.1
      rfl (by decide) rfl (by decide)⟩

/-- C6: starting from a state with no Pin Set file, `N` runs against the
same prefix leave `<prefix>/conda-meta/pinned` holding exactly the
`N`-fold repetition of the three pin lines in append order, so each of the
three lines occurs exactly `N` times — every run appends, nothing is
rewritten or deduplicated. -/
theorem pin_file_accumulates (p pfx : String) (env : Option Dict)
    (st : PyState) (n : Nat)
    (h1 : pinnedPath pfx ≠ st.executable)
    (h0 : st.fs (pinnedPath pfx) = none) :
    ((runN p pfx env n st).fs (pinnedPath pfx)).getD []
        = (List.replicate n (pinLines st.pymaj st.pymin
            (cudaVersionTag (dictLookup st.environ "CUDA_VERSION")))).flatten
    ∧ List.count (pinLine1 st.pymaj st.pymin)
        (((runN p pfx env n st).fs (pinnedPath pfx)).getD []) = n
    ∧ List.count (pinLine2 st.pymaj st.pymin)
        (((runN p pfx env n st).fs (pinnedPath pfx)).getD []) = n
    ∧ List.count
        (pinLine3 (cudaVersionTag (dictLookup st.environ "CUDA_VERSION")))
        (((runN p pfx env n st).fs (pinnedPath pfx)).getD []) = n := by
  have hmain := runN_pinned p pfx env n st h1
  rw [h0] at hmain
  rw [show (none : Option (List String)).getD [] = [] from rfl,
    List.nil_append] at hmain
  refine ⟨hmain, ?_, ?_, ?_⟩
  · rw [hmain, count_join_replicate, count_pinLines1, Nat.mul_one]
  · rw [hmain, count_join_replicate, count_pinLines2, Nat.mul_one]
  · rw [hmain, count_join_replicate, count_pinLines3, Nat.mul_one]

theorem pin_file_accumulates_witness :
    List.count (pinLine1 st0.pymaj st0.pymin)
        (((runN "x" "/usr/local" none 2 st0).fs (pinnedPath "/usr/local")).getD [])
      = 2
    ∧ List.count
        (pinLine3 (cudaVersionTag (dictLookup st0.environ "CUDA_VERSION")))
        (((runN "x" "/usr/local" none 2 st0).fs (pinnedPath "/usr/local")).getD [])
      = 2 :=
  ⟨(pin_file_accumulates "x" "/usr/local" none st0 2 (by decide) rfl).2.1,
   (pin_file_accumulates "x" "/usr/local" none st0 2 (by decide) rfl).2.2.2⟩
